import Mathlib

/-!
Verification of the hotel-reservation repository layer
(`source/customer.py`, `source/hotel.py`, `source/reservation.py`,
`source/storage.py`).

The Python code is shallowly embedded: each persisted file is modelled as
the list of JSON records it holds, each repository method as a pure
function from the file contents (plus its arguments) to an
`Except Err result` paired with the file contents after the call.
Python exceptions (`NotFoundError`, `ValidationError`) become the
`Err.notFound` / `Err.validation` results; a method that raises before
calling `_save_all` leaves the file component unchanged, exactly as the
code does.
-/

/-- JSON values as returned by `json.loads`.  The repository's data files
only ever hold strings and integers in record fields; non-integral JSON
numbers are not modelled. -/
inductive Json where
  | null : Json
  | bool (b : Bool) : Json
  | int (n : Int) : Json
  | str (s : String) : Json
  | arr (xs : List Json) : Json
  | obj (fields : List (String × Json)) : Json

/-- A JSON object (a Python dict produced by `json.loads`). -/
def JsonObj : Type := List (String × Json)

/-- The ASCII whitespace characters removed by Python's `str.strip()`. -/
def pyIsSpace (c : Char) : Bool :=
  c = ' ' || c = '\t' || c = '\n' || c = '\r' || c = '\x0b' || c = '\x0c'

/-- The character-list form of Python's `str.strip()`: drop whitespace
from the front, then from the back. -/
def stripList (cs : List Char) : List Char :=
  List.rdropWhile pyIsSpace (cs.dropWhile pyIsSpace)

/-- Python's `str.strip()` on strings. -/
def pyStrip (s : String) : String :=
  String.mk (stripList s.toList)

/-- Python's `c in s` membership test for a single character
(`"@" in email`, `"." in email`). -/
def pyContains (s : String) (c : Char) : Bool :=
  s.toList.contains c

/-- Python's `repr` on a JSON-decoded value (used by `str` inside
containers). -/
def pyRepr : Json → String
  | .null => "None"
  | .bool b => if b then "True" else "False"
  | .int n => toString n
  | .str s => "'" ++ s ++ "'"
  | .arr xs => "[" ++ String.intercalate ", " (xs.attach.map (fun x => pyRepr x.1)) ++ "]"
  | .obj fs =>
      "\x7b" ++
        String.intercalate ", "
          (fs.attach.map (fun f => "'" ++ f.1.1 ++ "': " ++ pyRepr f.1.2)) ++
      "\x7d"
decreasing_by
  · have := List.sizeOf_lt_of_mem x.2
    simp_wf
    omega
  · have h1 := List.sizeOf_lt_of_mem f.2
    have h2 : sizeOf f.1.2 < sizeOf f.1 := by
      obtain ⟨⟨a, b⟩, hf⟩ := f
      simp
    simp_wf
    omega

/-- Python's `str()` on a JSON-decoded value. -/
def pyStr : Json → String
  | .str s => s
  | v => pyRepr v

/-- Python's `int(string)`: optional sign and a nonempty digit run,
surrounded by optional whitespace; `none` models `ValueError`. -/
def parseIntPy (s : String) : Option Int :=
  let digitsVal (cs : List Char) : Option Nat :=
    if cs ≠ [] && cs.all Char.isDigit then
      some (cs.foldl (fun a c => 10 * a + (c.toNat - '0'.toNat)) 0)
    else none
  match (pyStrip s).toList with
  | '+' :: rest => (digitsVal rest).map Int.ofNat
  | '-' :: rest => (digitsVal rest).map (fun n => -(n : Int))
  | cs => (digitsVal cs).map Int.ofNat

/-- Python's `int()` on a JSON-decoded value; `none` models the
`ValueError` / `TypeError` caught in `_validate_record`. -/
def pyInt : Json → Option Int
  | .int n => some n
  | .bool b => some (if b then 1 else 0)
  | .str s => parseIntPy s
  | _ => none

/-- `record[key]` on a JSON object, `none` when the key is absent. -/
def lookupField (r : JsonObj) (key : String) : Option Json :=
  (List.find? (fun f => f.1 = key) r).map (fun f => f.2)

/-- The two domain exception kinds raised by the repositories
(`exceptions.py`): `NotFoundError` and `ValidationError`. -/
inductive Err where
  | notFound : Err
  | validation : Err
deriving DecidableEq, Repr

/-- `True` exactly on the error outcome of a repository call. -/
def isErr {α : Type} : Except Err α → Bool
  | .error _ => true
  | .ok _ => false

/-! ## Hotel (`source/hotel.py`) -/

/-- The `Hotel` dataclass. -/
structure Hotel where
  hotel_id : String
  name : String
  city : String
  total_rooms : Int
  reserved_rooms : Int
deriving DecidableEq, Repr

/-- `Hotel.available_rooms`: `max(0, total_rooms - reserved_rooms)`. -/
def Hotel.available_rooms (h : Hotel) : Int :=
  max 0 (h.total_rooms - h.reserved_rooms)

/-- A hotel file is the list of raw records persisted in `hotels.json`. -/
def HotelFile : Type := List JsonObj

/-- `HotelRepository._validate_record`: checks the required fields are
present, coerces ids and names through `str(...).strip()` and the room
counters through `int(...)`, and rejects empty strings,
`total_rooms <= 0`, and `reserved_rooms` outside `[0, total_rooms]`. -/
def hotelValidateRecord (r : JsonObj) : Option Hotel :=
  match lookupField r "hotel_id", lookupField r "name", lookupField r "city",
        lookupField r "total_rooms", lookupField r "reserved_rooms" with
  | some vid, some vname, some vcity, some vtot, some vres =>
    let hotel_id := pyStrip (pyStr vid)
    let name := pyStrip (pyStr vname)
    let city := pyStrip (pyStr vcity)
    match pyInt vtot, pyInt vres with
    | some total_rooms, some reserved_rooms =>
      if hotel_id = "" ∨ name = "" ∨ city = "" then none
      else if total_rooms ≤ 0 then none
      else if reserved_rooms < 0 ∨ total_rooms < reserved_rooms then none
      else some ⟨hotel_id, name, city, total_rooms, reserved_rooms⟩
    | _, _ => none
  | _, _, _, _, _ => none

/-- `dataclasses.asdict` on a `Hotel`, as written by `_save_all`. -/
def hotelToRecord (h : Hotel) : JsonObj :=
  [("hotel_id", .str h.hotel_id), ("name", .str h.name), ("city", .str h.city),
   ("total_rooms", .int h.total_rooms), ("reserved_rooms", .int h.reserved_rooms)]

/-- `HotelRepository._load_all`: validate every record, dropping the
invalid ones. -/
def hotelLoadAll (f : HotelFile) : List Hotel :=
  f.filterMap hotelValidateRecord

/-- `HotelRepository._save_all`. -/
def hotelSaveAll (hs : List Hotel) : HotelFile :=
  hs.map hotelToRecord

/-- The linear search performed by `HotelRepository.get_hotel`. -/
def getHotel? (f : HotelFile) (hotel_id : String) : Option Hotel :=
  (hotelLoadAll f).find? (fun h => h.hotel_id == hotel_id)

/-- `HotelRepository.get_hotel` as a repository call: never writes. -/
def get_hotel (f : HotelFile) (hotel_id : String) : Except Err Hotel × HotelFile :=
  match getHotel? f hotel_id with
  | some h => (.ok h, f)
  | none => (.error .notFound, f)

/-- `HotelRepository.display_hotel`. -/
def display_hotel (f : HotelFile) (hotel_id : String) : Except Err String × HotelFile :=
  match getHotel? f hotel_id with
  | some h =>
      (.ok ("Hotel[" ++ h.hotel_id ++ "] " ++ h.name ++ " (" ++ h.city ++ ") " ++
            "rooms: " ++ toString h.reserved_rooms ++ "/" ++ toString h.total_rooms ++
            " available: " ++ toString h.available_rooms), f)
  | none => (.error .notFound, f)

/-- `HotelRepository.create_hotel`.  `fresh` stands for the `uuid4()`
call that generates the new id. -/
def create_hotel (f : HotelFile) (fresh name city : String) (total_rooms : Int) :
    Except Err Hotel × HotelFile :=
  let name := pyStrip name
  let city := pyStrip city
  if name = "" then (.error .validation, f)
  else if city = "" then (.error .validation, f)
  else if total_rooms ≤ 0 then (.error .validation, f)
  else
    let h : Hotel := ⟨fresh, name, city, total_rooms, 0⟩
    (.ok h, hotelSaveAll (hotelLoadAll f ++ [h]))

/-- `HotelRepository.modify_hotel`: validates the new fields, then walks
the loaded hotels replacing every record whose id matches, raising
`ValidationError` (before any save) when a matching record has
`reserved_rooms > total_rooms` and `NotFoundError` when no record
matches; on success saves and re-reads the hotel. -/
def modify_hotel (f : HotelFile) (hotel_id name city : String) (total_rooms : Int) :
    Except Err Hotel × HotelFile :=
  let name := pyStrip name
  let city := pyStrip city
  if name = "" then (.error .validation, f)
  else if city = "" then (.error .validation, f)
  else if total_rooms ≤ 0 then (.error .validation, f)
  else
    let hotels := hotelLoadAll f
    if hotels.any (fun h => h.hotel_id == hotel_id && decide (total_rooms < h.reserved_rooms)) then
      (.error .validation, f)
    else if hotels.any (fun h => h.hotel_id == hotel_id) then
      let updated := hotels.map (fun h =>
        if h.hotel_id = hotel_id then
          ⟨hotel_id, name, city, total_rooms, h.reserved_rooms⟩
        else h)
      let f' := hotelSaveAll updated
      match getHotel? f' hotel_id with
      | some h => (.ok h, f')
      | none => (.error .notFound, f')
    else (.error .notFound, f)

/-- Modelled from the spec: `reserve_room` is called by
`ReservationRepository.create_reservation` and by the test suite but its
definition is absent from `src/source/hotel.py`.  Spec §4.3:
"`reserve_room(hotel_id)`: fails NotFound if hotel absent; fails
Validation if available_rooms == 0; otherwise increments reserved_rooms
by 1 and persists." -/
def reserve_room (f : HotelFile) (hotel_id : String) : Except Err Unit × HotelFile :=
  match getHotel? f hotel_id with
  | none => (.error .notFound, f)
  | some h =>
    if h.available_rooms = 0 then (.error .validation, f)
    else
      let updated := (hotelLoadAll f).map (fun g =>
        if g.hotel_id = hotel_id then { g with reserved_rooms := g.reserved_rooms + 1 }
        else g)
      (.ok (), hotelSaveAll updated)

/-- Modelled from the spec: `cancel_room_reservation` is called by
`ReservationRepository.cancel_reservation` and by the test suite but its
definition is absent from `src/source/hotel.py`.  Spec §4.3:
"`cancel_room_reservation(hotel_id)`: fails NotFound if absent; fails
Validation if reserved_rooms == 0 (nothing to release); otherwise
decrements reserved_rooms by 1 and persists." -/
def cancel_room_reservation (f : HotelFile) (hotel_id : String) :
    Except Err Unit × HotelFile :=
  match getHotel? f hotel_id with
  | none => (.error .notFound, f)
  | some h =>
    if h.reserved_rooms = 0 then (.error .validation, f)
    else
      let updated := (hotelLoadAll f).map (fun g =>
        if g.hotel_id = hotel_id then { g with reserved_rooms := g.reserved_rooms - 1 }
        else g)
      (.ok (), hotelSaveAll updated)

/-! ## Customer (`source/customer.py`) -/

/-- The `Customer` dataclass. -/
structure Customer where
  customer_id : String
  name : String
  email : String
deriving DecidableEq, Repr

/-- A customer file is the list of raw records persisted in
`customers.json`. -/
def CustomerFile : Type := List JsonObj

/-- `CustomerRepository._validate_record`: requires the three fields,
coerces them through `str(...).strip()`, and rejects empty strings. -/
def customerValidateRecord (r : JsonObj) : Option Customer :=
  match lookupField r "customer_id", lookupField r "name", lookupField r "email" with
  | some vid, some vname, some vemail =>
    let customer_id := pyStrip (pyStr vid)
    let name := pyStrip (pyStr vname)
    let email := pyStrip (pyStr vemail)
    if customer_id = "" ∨ name = "" ∨ email = "" then none
    else some ⟨customer_id, name, email⟩
  | _, _, _ => none

/-- `dataclasses.asdict` on a `Customer`. -/
def customerToRecord (c : Customer) : JsonObj :=
  [("customer_id", .str c.customer_id), ("name", .str c.name), ("email", .str c.email)]

/-- `CustomerRepository._load_all`. -/
def customerLoadAll (f : CustomerFile) : List Customer :=
  f.filterMap customerValidateRecord

/-- `CustomerRepository._save_all`. -/
def customerSaveAll (cs : List Customer) : CustomerFile :=
  cs.map customerToRecord

/-- The linear search performed by `CustomerRepository.get_customer`. -/
def getCustomer? (f : CustomerFile) (customer_id : String) : Option Customer :=
  (customerLoadAll f).find? (fun c => c.customer_id == customer_id)

/-- `CustomerRepository.get_customer` as a repository call: never
writes. -/
def get_customer (f : CustomerFile) (customer_id : String) :
    Except Err Customer × CustomerFile :=
  match getCustomer? f customer_id with
  | some c => (.ok c, f)
  | none => (.error .notFound, f)

/-- `CustomerRepository.display_customer`. -/
def display_customer (f : CustomerFile) (customer_id : String) :
    Except Err String × CustomerFile :=
  match getCustomer? f customer_id with
  | some c => (.ok ("Customer[" ++ c.customer_id ++ "] " ++ c.name ++
                    " <" ++ c.email ++ ">"), f)
  | none => (.error .notFound, f)

/-- `CustomerRepository.create_customer`.  `fresh` stands for the
`uuid4()` call that generates the new id. -/
def create_customer (f : CustomerFile) (fresh name email : String) :
    Except Err Customer × CustomerFile :=
  let name := pyStrip name
  let email := pyStrip email
  if name = "" then (.error .validation, f)
  else if !(pyContains email '@') || !(pyContains email '.') then (.error .validation, f)
  else
    let c : Customer := ⟨fresh, name, email⟩
    (.ok c, customerSaveAll (customerLoadAll f ++ [c]))

/-- `CustomerRepository.modify_customer`. -/
def modify_customer (f : CustomerFile) (customer_id name email : String) :
    Except Err Customer × CustomerFile :=
  let name := pyStrip name
  let email := pyStrip email
  if name = "" then (.error .validation, f)
  else if !(pyContains email '@') || !(pyContains email '.') then (.error .validation, f)
  else
    let customers := customerLoadAll f
    if customers.any (fun c => c.customer_id == customer_id) then
      let updated := customers.map (fun c =>
        if c.customer_id = customer_id then ⟨customer_id, name, email⟩ else c)
      let f' := customerSaveAll updated
      match getCustomer? f' customer_id with
      | some c => (.ok c, f')
      | none => (.error .notFound, f')
    else (.error .notFound, f)

/-- `CustomerRepository.delete_customer`. -/
def delete_customer (f : CustomerFile) (customer_id : String) :
    Except Err Unit × CustomerFile :=
  let customers := customerLoadAll f
  let new_list := customers.filter (fun c => !(c.customer_id == customer_id))
  if new_list.length = customers.length then (.error .notFound, f)
  else (.ok (), customerSaveAll new_list)

/-! ## Reservation (`source/reservation.py`) -/

/-- The `Reservation` dataclass. -/
structure Reservation where
  reservation_id : String
  customer_id : String
  hotel_id : String
deriving DecidableEq, Repr

/-- A reservation file is the list of raw records persisted in
`reservations.json`. -/
def ResFile : Type := List JsonObj

/-- `ReservationRepository._validate_record`. -/
def resValidateRecord (r : JsonObj) : Option Reservation :=
  match lookupField r "reservation_id", lookupField r "customer_id",
        lookupField r "hotel_id" with
  | some vrid, some vcid, some vhid =>
    let reservation_id := pyStrip (pyStr vrid)
    let customer_id := pyStrip (pyStr vcid)
    let hotel_id := pyStrip (pyStr vhid)
    if reservation_id = "" ∨ customer_id = "" ∨ hotel_id = "" then none
    else some ⟨reservation_id, customer_id, hotel_id⟩
  | _, _, _ => none

/-- `dataclasses.asdict` on a `Reservation`. -/
def resToRecord (r : Reservation) : JsonObj :=
  [("reservation_id", .str r.reservation_id), ("customer_id", .str r.customer_id),
   ("hotel_id", .str r.hotel_id)]

/-- `ReservationRepository._load_all`. -/
def resLoadAll (f : ResFile) : List Reservation :=
  f.filterMap resValidateRecord

/-- `ReservationRepository._save_all`. -/
def resSaveAll (rs : List Reservation) : ResFile :=
  rs.map resToRecord

/-- The loop of `cancel_reservation` keeps overwriting `target`, so the
target it acts on is the last loaded reservation whose id matches. -/
def resTarget? (f : ResFile) (reservation_id : String) : Option Reservation :=
  ((resLoadAll f).filter (fun r => r.reservation_id == reservation_id)).getLast?

/-- `ReservationRepository.create_reservation`: looks up the customer,
then the hotel, then reserves the room, and only then appends and saves
the new reservation (`fresh` stands for the generated `uuid4()` id).
Each failing step propagates its error with no reservation written. -/
def create_reservation (cf : CustomerFile) (hf : HotelFile) (rf : ResFile)
    (customer_id hotel_id fresh : String) :
    Except Err Reservation × HotelFile × ResFile :=
  match getCustomer? cf customer_id with
  | none => (.error .notFound, hf, rf)
  | some _ =>
    match getHotel? hf hotel_id with
    | none => (.error .notFound, hf, rf)
    | some _ =>
      match reserve_room hf hotel_id with
      | (.error e, hf') => (.error e, hf', rf)
      | (.ok _, hf') =>
        let r : Reservation := ⟨fresh, customer_id, hotel_id⟩
        (.ok r, hf', resSaveAll (resLoadAll rf ++ [r]))

/-- `ReservationRepository.cancel_reservation`: finds the target (last
matching record) and the remaining records, raises `NotFoundError` if no
record matches, then releases the hotel room — propagating any error
before the reservation file is rewritten — and finally saves the
remaining records. -/
def cancel_reservation (hf : HotelFile) (rf : ResFile) (reservation_id : String) :
    Except Err Unit × HotelFile × ResFile :=
  let reservations := resLoadAll rf
  let remaining := reservations.filter (fun r => !(r.reservation_id == reservation_id))
  match (reservations.filter (fun r => r.reservation_id == reservation_id)).getLast? with
  | none => (.error .notFound, hf, rf)
  | some target =>
    match cancel_room_reservation hf target.hotel_id with
    | (.error e, hf') => (.error e, hf', rf)
    | (.ok _, hf') => (.ok (), hf', resSaveAll remaining)

/-- `ReservationRepository.display_reservation`: pure read. -/
def display_reservation (rf : ResFile) (reservation_id : String) : Except Err String :=
  match (resLoadAll rf).find? (fun r => r.reservation_id == reservation_id) with
  | some r =>
      .ok ("Reservation[" ++ r.reservation_id ++ "] customer=" ++ r.customer_id ++
           " hotel=" ++ r.hotel_id)
  | none => .error .notFound

/-! ## Storage (`source/storage.py`)

`load_json_list` reads a file and parses it with `json.loads`.  The file
system is modelled as `Option String` (`none` = the `path.exists()` check
fails) and the stdlib JSON parser as an oracle `parse` (`none` =
`json.JSONDecodeError`). -/

/-- `load_json_list`: empty list when the file is absent, when the
stripped text is empty, when parsing fails, or when the document is not
an array; otherwise keeps (in order) exactly the elements that are
objects. -/
def load_json_list (file : Option String) (parse : String → Option Json) :
    List JsonObj :=
  match file with
  | none => []
  | some content =>
    let raw := pyStrip content
    if raw = "" then []
    else
      match parse raw with
      | none => []
      | some (Json.arr xs) =>
          xs.filterMap (fun j => match j with | Json.obj kvs => some kvs | _ => none)
      | some _ => []

/-- Keeps the payload of a JSON object element, mirroring the
`isinstance(item, dict)` filter in `load_json_list`. -/
def jsonObjOnly : Json → Option JsonObj
  | .obj kvs => some kvs
  | _ => none

/-- `isinstance(item, dict)` on a JSON value. -/
def isJsonObj : Json → Bool
  | .obj _ => true
  | _ => false

/-! ## Concrete stores used to witness the theorems below -/

/-- A one-hotel store: 2 rooms, 1 reserved. -/
def c1File : HotelFile := [hotelToRecord ⟨"h-1", "Hotel A", "CDMX", 2, 1⟩]

/-- A one-customer store. -/
def c2CustFile : CustomerFile := [customerToRecord ⟨"c-1", "Ana", "ana@mail.com"⟩]

/-- A one-hotel store with availability. -/
def c2HotelFile : HotelFile := [hotelToRecord ⟨"h-1", "Hotel A", "CDMX", 2, 1⟩]

/-- An empty reservation store. -/
def c2ResFile : ResFile := []

/-- A reservation whose hotel id matches no hotel in the hotel store. -/
def c3ResFile : ResFile := [resToRecord ⟨"r-1", "c-1", "h-x"⟩]

/-- A reservation pointing at a hotel with a reserved room. -/
def c3ResFileOk : ResFile := [resToRecord ⟨"r-1", "c-1", "h-1"⟩]

/-- The hotel store backing `c3ResFileOk`. -/
def c3HotelFile : HotelFile := [hotelToRecord ⟨"h-1", "Hotel A", "CDMX", 3, 2⟩]

/-- One valid record and one record violating the reserved-rooms bound. -/
def c4File : HotelFile :=
  [hotelToRecord ⟨"h-001", "Hotel Centro", "CDMX", 10, 2⟩,
   [("hotel_id", .str "bad-005"), ("name", .str "Bad"), ("city", .str "X"),
    ("total_rooms", .int 5), ("reserved_rooms", .int 6)]]

/-- The hotel loaded from the valid record of `c4File`. -/
def c4Hotel : Hotel := ⟨"h-001", "Hotel Centro", "CDMX", 10, 2⟩

/-- A one-hotel store with availability, for the round-trip witness. -/
def c5File : HotelFile := [hotelToRecord ⟨"h-1", "Hotel A", "CDMX", 3, 1⟩]

/-- A one-hotel store with no reservations, for the modify witness. -/
def c6File : HotelFile := [hotelToRecord ⟨"h-1", "A", "C", 5, 0⟩]

/-- A parse oracle mapping one fixed document to an array with object and
non-object elements. -/
def c8Parse : String → Option Json := fun s =>
  if s = "[x]" then
    some (Json.arr [Json.obj [], Json.int 3, Json.obj [("a", Json.int 1)]])
  else none

/-- A reservation whose hotel id matches no hotel, for the cancel-order
witness. -/
def c9ResFile : ResFile := [resToRecord ⟨"r-9", "c-9", "h-gone"⟩]

/-! ## Validity invariants -/

/-- The invariant guaranteed for every hotel surviving
`_validate_record`: stripped non-empty strings and
`0 < total_rooms`, `0 ≤ reserved_rooms ≤ total_rooms`. -/
def Hotel.valid (h : Hotel) : Prop :=
  pyStrip h.hotel_id = h.hotel_id ∧ h.hotel_id ≠ "" ∧
  pyStrip h.name = h.name ∧ h.name ≠ "" ∧
  pyStrip h.city = h.city ∧ h.city ≠ "" ∧
  0 < h.total_rooms ∧ 0 ≤ h.reserved_rooms ∧ h.reserved_rooms ≤ h.total_rooms

instance (h : Hotel) : Decidable (Hotel.valid h) := by
  unfold Hotel.valid; exact inferInstance
/-- The invariant guaranteed for every customer surviving
`_validate_record`. -/
def Customer.valid (c : Customer) : Prop :=
  pyStrip c.customer_id = c.customer_id ∧ c.customer_id ≠ "" ∧
  pyStrip c.name = c.name ∧ c.name ≠ "" ∧
  pyStrip c.email = c.email ∧ c.email ≠ ""

instance (c : Customer) : Decidable (Customer.valid c) := by
  unfold Customer.valid; exact inferInstance
/-- The invariant guaranteed for every reservation surviving
`_validate_record`. -/
def Reservation.valid (r : Reservation) : Prop :=
  pyStrip r.reservation_id = r.reservation_id ∧ r.reservation_id ≠ "" ∧
  pyStrip r.customer_id = r.customer_id ∧ r.customer_id ≠ "" ∧
  pyStrip r.hotel_id = r.hotel_id ∧ r.hotel_id ≠ ""

instance (r : Reservation) : Decidable (Reservation.valid r) := by
  unfold Reservation.valid; exact inferInstance

/-! ## Strip idempotence -/

/-- Stripping an already stripped character list changes nothing. -/
theorem stripList_idem (cs : List Char) : stripList (stripList cs) = stripList cs := by
  unfold stripList
  have hdw : (List.rdropWhile pyIsSpace (cs.dropWhile pyIsSpace)).dropWhile pyIsSpace
      = List.rdropWhile pyIsSpace (cs.dropWhile pyIsSpace) := by
    rw [List.dropWhile_eq_self_iff]
    intro hl
    have hpre := List.rdropWhile_prefix pyIsSpace (cs.dropWhile pyIsSpace)
    have hlen : 0 < (cs.dropWhile pyIsSpace).length :=
      lt_of_lt_of_le hl hpre.length_le
    have hget := List.IsPrefix.getElem hpre hl
    simp only [List.get_eq_getElem]
    rw [hget]
    have := List.dropWhile_get_zero_not pyIsSpace cs hlen
    simpa using this
  rw [hdw, List.rdropWhile_idempotent]

/-- `pyStrip` is idempotent: re-stripping a stripped string is the
identity (Python: `s.strip().strip() == s.strip()`). -/
theorem pyStrip_idem (s : String) : pyStrip (pyStrip s) = pyStrip s := by
  unfold pyStrip
  have h : (String.mk (stripList s.toList)).toList = stripList s.toList := rfl
  rw [h, stripList_idem]

/-! ## Record validity and the save/load round trip -/

/-- Every hotel produced by `_validate_record` is valid. -/
theorem hotelValidateRecord_valid {r : JsonObj} {h : Hotel}
    (hv : hotelValidateRecord r = some h) : h.valid := by
  unfold hotelValidateRecord at hv
  split at hv
  case _ =>
    rename_i vid vname vcity vtot vres heq1 heq2 heq3 heq4 heq5
    dsimp only at hv
    split at hv
    case _ =>
      rename_i total reserved htot hres
      by_cases h1 : pyStrip (pyStr vid) = "" ∨ pyStrip (pyStr vname) = "" ∨
          pyStrip (pyStr vcity) = ""
      · rw [if_pos h1] at hv
        exact absurd hv (by simp)
      · rw [if_neg h1] at hv
        by_cases h2 : total ≤ 0
        · rw [if_pos h2] at hv
          exact absurd hv (by simp)
        · rw [if_neg h2] at hv
          by_cases h3 : reserved < 0 ∨ total < reserved
          · rw [if_pos h3] at hv
            exact absurd hv (by simp)
          · rw [if_neg h3] at hv
            injection hv with hv
            subst hv
            push_neg at h1 h3
            unfold Hotel.valid
            dsimp only
            exact ⟨pyStrip_idem _, h1.1, pyStrip_idem _, h1.2.1, pyStrip_idem _,
                   h1.2.2, by omega, by omega, by omega⟩
    case _ => exact absurd hv (by simp)
  case _ => exact absurd hv (by simp)

/-- Every hotel in the loaded set is valid. -/
theorem hotelLoadAll_valid {f : HotelFile} {h : Hotel}
    (hm : h ∈ hotelLoadAll f) : h.valid := by
  unfold hotelLoadAll at hm
  obtain ⟨r, _, hr⟩ := List.mem_filterMap.mp hm
  exact hotelValidateRecord_valid hr

/-- Re-validating the record written for a valid hotel gives the hotel
back. -/
theorem hotelToRecord_validate {h : Hotel} (hv : h.valid) :
    hotelValidateRecord (hotelToRecord h) = some h := by
  obtain ⟨hid1, hid2, hn1, hn2, hc1, hc2, ht, hr0, hrt⟩ := hv
  have h2 : ¬(h.total_rooms ≤ 0) := by omega
  have h3a : ¬(h.reserved_rooms < 0) := by omega
  have h3b : ¬(h.total_rooms < h.reserved_rooms) := by omega
  simp [hotelValidateRecord, hotelToRecord, lookupField, List.find?, pyStr, pyInt,
        hid1, hid2, hn1, hn2, hc1, hc2, h2, h3a, h3b]

/-- Saving valid hotels and loading them back is the identity. -/
theorem hotelLoadAll_saveAll {hs : List Hotel} (hv : ∀ h ∈ hs, h.valid) :
    hotelLoadAll (hotelSaveAll hs) = hs := by
  induction hs with
  | nil => rfl
  | cons h t ih =>
      have hh : h.valid := hv h (by simp)
      show (hotelToRecord h :: hotelSaveAll t).filterMap hotelValidateRecord = h :: t
      rw [List.filterMap_cons, hotelToRecord_validate hh]
      exact congrArg (h :: ·) (ih (fun x hx => hv x (by simp [hx])))

/-- After mapping an id-targeted update over a list of valid hotels,
saving and reloading, the first hotel found for that id is the updated
form of the hotel found before — provided the updated hotel is still a
valid record (later duplicates may be dropped, the first match is not).
-/
theorem find_loadAll_save_update (l : List Hotel)
    (hvl : ∀ g ∈ l, g.valid) (hid : String) (upd : Hotel → Hotel) (h : Hotel)
    (hfind : l.find? (fun g => g.hotel_id == hid) = some h)
    (hval : (upd h).valid) (hpres : (upd h).hotel_id = h.hotel_id) :
    (hotelLoadAll (hotelSaveAll (l.map (fun g =>
        if g.hotel_id = hid then upd g else g)))).find? (fun g => g.hotel_id == hid)
      = some (upd h) := by
  induction l with
  | nil => simp at hfind
  | cons g t ih =>
    by_cases hg : g.hotel_id = hid
    · rw [List.find?_cons_of_pos _ (by simp [hg])] at hfind
      injection hfind with hfind
      subst hfind
      rw [List.map_cons, if_pos hg]
      show ((hotelToRecord (upd g) :: hotelSaveAll (t.map _)).filterMap
              hotelValidateRecord).find? _ = _
      rw [List.filterMap_cons, hotelToRecord_validate hval]
      exact List.find?_cons_of_pos _ (by simp [hpres, hg])
    · rw [List.find?_cons_of_neg _ (by simp [hg])] at hfind
      have hgv : g.valid := hvl g (by simp)
      rw [List.map_cons, if_neg hg]
      show ((hotelToRecord g :: hotelSaveAll (t.map _)).filterMap
              hotelValidateRecord).find? _ = _
      rw [List.filterMap_cons, hotelToRecord_validate hgv]
      rw [List.find?_cons_of_neg _ (by simp [hg])]
      exact ih (fun x hx => hvl x (by simp [hx])) hfind

/-- Every customer produced by `_validate_record` is valid. -/
theorem customerValidateRecord_valid {r : JsonObj} {c : Customer}
    (hv : customerValidateRecord r = some c) : c.valid := by
  unfold customerValidateRecord at hv
  split at hv
  case _ =>
    rename_i vid vname vemail heq1 heq2 heq3
    dsimp only at hv
    by_cases h1 : pyStrip (pyStr vid) = "" ∨ pyStrip (pyStr vname) = "" ∨
        pyStrip (pyStr vemail) = ""
    · rw [if_pos h1] at hv
      exact absurd hv (by simp)
    · rw [if_neg h1] at hv
      injection hv with hv
      subst hv
      push_neg at h1
      exact ⟨pyStrip_idem _, h1.1, pyStrip_idem _, h1.2.1, pyStrip_idem _, h1.2.2⟩
  case _ => exact absurd hv (by simp)

/-- Every customer in the loaded set is valid. -/
theorem customerLoadAll_valid {f : CustomerFile} {c : Customer}
    (hm : c ∈ customerLoadAll f) : c.valid := by
  unfold customerLoadAll at hm
  obtain ⟨r, _, hr⟩ := List.mem_filterMap.mp hm
  exact customerValidateRecord_valid hr

/-- Re-validating the record written for a valid customer gives the
customer back. -/
theorem customerToRecord_validate {c : Customer} (hv : c.valid) :
    customerValidateRecord (customerToRecord c) = some c := by
  obtain ⟨hid1, hid2, hn1, hn2, he1, he2⟩ := hv
  simp [customerValidateRecord, customerToRecord, lookupField, List.find?, pyStr,
        hid1, hid2, hn1, hn2, he1, he2]

/-- Saving valid customers and loading them back is the identity. -/
theorem customerLoadAll_saveAll {cs : List Customer} (hv : ∀ c ∈ cs, c.valid) :
    customerLoadAll (customerSaveAll cs) = cs := by
  induction cs with
  | nil => rfl
  | cons c t ih =>
      have hc : c.valid := hv c (by simp)
      show (customerToRecord c :: customerSaveAll t).filterMap customerValidateRecord
            = c :: t
      rw [List.filterMap_cons, customerToRecord_validate hc]
      exact congrArg (c :: ·) (ih (fun x hx => hv x (by simp [hx])))

/-- Every reservation produced by `_validate_record` is valid. -/
theorem resValidateRecord_valid {r : JsonObj} {v : Reservation}
    (hv : resValidateRecord r = some v) : v.valid := by
  unfold resValidateRecord at hv
  split at hv
  case _ =>
    rename_i vrid vcid vhid heq1 heq2 heq3
    dsimp only at hv
    by_cases h1 : pyStrip (pyStr vrid) = "" ∨ pyStrip (pyStr vcid) = "" ∨
        pyStrip (pyStr vhid) = ""
    · rw [if_pos h1] at hv
      exact absurd hv (by simp)
    · rw [if_neg h1] at hv
      injection hv with hv
      subst hv
      push_neg at h1
      exact ⟨pyStrip_idem _, h1.1, pyStrip_idem _, h1.2.1, pyStrip_idem _, h1.2.2⟩
  case _ => exact absurd hv (by simp)

/-- Every reservation in the loaded set is valid. -/
theorem resLoadAll_valid {f : ResFile} {v : Reservation}
    (hm : v ∈ resLoadAll f) : v.valid := by
  unfold resLoadAll at hm
  obtain ⟨r, _, hr⟩ := List.mem_filterMap.mp hm
  exact resValidateRecord_valid hr

/-- Re-validating the record written for a valid reservation gives the
reservation back. -/
theorem resToRecord_validate {v : Reservation} (hv : v.valid) :
    resValidateRecord (resToRecord v) = some v := by
  obtain ⟨hr1, hr2, hc1, hc2, hh1, hh2⟩ := hv
  simp [resValidateRecord, resToRecord, lookupField, List.find?, pyStr,
        hr1, hr2, hc1, hc2, hh1, hh2]

/-- Saving valid reservations and loading them back is the identity. -/
theorem resLoadAll_saveAll {rs : List Reservation} (hv : ∀ r ∈ rs, r.valid) :
    resLoadAll (resSaveAll rs) = rs := by
  induction rs with
  | nil => rfl
  | cons r t ih =>
      have hr : r.valid := hv r (by simp)
      show (resToRecord r :: resSaveAll t).filterMap resValidateRecord = r :: t
      rw [List.filterMap_cons, resToRecord_validate hr]
      exact congrArg (r :: ·) (ih (fun x hx => hv x (by simp [hx])))

/-! ## Claim theorems -/

/-- Claim C4: every `Hotel` produced by `HotelRepository`'s
load-and-validate step satisfies `total_rooms > 0` and
`0 ≤ reserved_rooms ≤ total_rooms` and has non-empty trimmed id, name and
city; records violating these bounds never appear in the loaded set (the
load is total, so a violating record is dropped rather than failing the
load, and is unreachable by id through `getHotel?`). -/
theorem c4_load_validate_invariant (f : HotelFile) (h : Hotel)
    (hm : h ∈ hotelLoadAll f ∨ ∃ hid, getHotel? f hid = some h) :
    0 < h.total_rooms ∧ 0 ≤ h.reserved_rooms ∧ h.reserved_rooms ≤ h.total_rooms ∧
    h.hotel_id ≠ "" ∧ pyStrip h.hotel_id = h.hotel_id ∧
    h.name ≠ "" ∧ pyStrip h.name = h.name ∧
    h.city ≠ "" ∧ pyStrip h.city = h.city := by
  have hmem : h ∈ hotelLoadAll f := by
    rcases hm with hm | ⟨hid, hm⟩
    · exact hm
    · exact List.mem_of_find?_eq_some hm
  obtain ⟨a1, a2, a3, a4, a5, a6, a7, a8, a9⟩ := hotelLoadAll_valid hmem
  exact ⟨a7, a8, a9, a2, a1, a4, a3, a6, a5⟩

/-- Witness for C4 at a concrete store holding one valid and one
out-of-bounds record. -/
theorem c4_witness :
    0 < c4Hotel.total_rooms ∧ 0 ≤ c4Hotel.reserved_rooms ∧
    c4Hotel.reserved_rooms ≤ c4Hotel.total_rooms ∧
    c4Hotel.hotel_id ≠ "" ∧ pyStrip c4Hotel.hotel_id = c4Hotel.hotel_id ∧
    c4Hotel.name ≠ "" ∧ pyStrip c4Hotel.name = c4Hotel.name ∧
    c4Hotel.city ≠ "" ∧ pyStrip c4Hotel.city = c4Hotel.city :=
  c4_load_validate_invariant c4File c4Hotel (Or.inl (by decide))

/-- Wrapping each kept object back up reproduces the object elements of
the original array, in order. -/
theorem filterMap_jsonObjOnly_map_obj (xs : List Json) :
    (xs.filterMap jsonObjOnly).map Json.obj = xs.filter isJsonObj := by
  induction xs with
  | nil => rfl
  | cons j t ih =>
      cases j <;> simp [List.filterMap_cons, List.filter_cons, jsonObjOnly, isJsonObj, ih]

/-- Claim C8: `load_json_list` returns an empty list, without raising,
when the file is absent, empty or whitespace-only after stripping, not
parseable as JSON, or parseable but not a JSON array; when it is an
array, exactly the non-object elements are dropped and the object
elements are returned in their original relative order. -/
theorem c8_load_json_list_contract (parse : String → Option Json) (content : String) :
    load_json_list none parse = [] ∧
    (pyStrip content = "" → load_json_list (some content) parse = []) ∧
    (pyStrip content ≠ "" → parse (pyStrip content) = none →
        load_json_list (some content) parse = []) ∧
    (∀ j, pyStrip content ≠ "" → parse (pyStrip content) = some j →
        (∀ xs, j ≠ Json.arr xs) → load_json_list (some content) parse = []) ∧
    (∀ xs, pyStrip content ≠ "" → parse (pyStrip content) = some (Json.arr xs) →
        load_json_list (some content) parse = xs.filterMap jsonObjOnly ∧
        (load_json_list (some content) parse).map Json.obj = xs.filter isJsonObj ∧
        List.Sublist (xs.filter isJsonObj) xs) := by
  refine ⟨rfl, ?_, ?_, ?_, ?_⟩
  · intro he
    simp [load_json_list, he]
  · intro hne hp
    simp [load_json_list, hne, hp]
  · intro j hne hp hnarr
    cases j with
    | arr xs => exact absurd rfl (hnarr xs)
    | null => simp [load_json_list, hne, hp]
    | bool b => simp [load_json_list, hne, hp]
    | int n => simp [load_json_list, hne, hp]
    | str s => simp [load_json_list, hne, hp]
    | obj kvs => simp [load_json_list, hne, hp]
  · intro xs hne hp
    have h1 : load_json_list (some content) parse = xs.filterMap jsonObjOnly := by
      simp only [load_json_list, hne, if_neg hne, hp]
      congr 1
    refine ⟨h1, ?_, List.filter_sublist xs⟩
    rw [h1]
    exact filterMap_jsonObjOnly_map_obj xs

/-- Witness for C8: a whitespace-padded array document with two object
elements and one non-object element. -/
theorem c8_witness :
    load_json_list (some " [x] ") c8Parse
        = [Json.obj [], Json.int 3, Json.obj [("a", Json.int 1)]].filterMap jsonObjOnly ∧
    (load_json_list (some " [x] ") c8Parse).map Json.obj
        = [Json.obj [], Json.int 3, Json.obj [("a", Json.int 1)]].filter isJsonObj ∧
    List.Sublist ([Json.obj [], Json.int 3, Json.obj [("a", Json.int 1)]].filter isJsonObj)
        [Json.obj [], Json.int 3, Json.obj [("a", Json.int 1)]] :=
  (c8_load_json_list_contract c8Parse " [x] ").2.2.2.2
    [Json.obj [], Json.int 3, Json.obj [("a", Json.int 1)]] (by decide) rfl

/-- Claim C1: `reserve_room` fails NotFound when the id matches no hotel
in the loaded valid record set; fails Validation, leaving the persisted
state untouched, when the hotel's `available_rooms` is 0; and otherwise
succeeds, persisting the record set with that hotel's `reserved_rooms`
incremented by exactly 1. -/
theorem c1_reserve_room_contract (f : HotelFile) (hid : String) :
    (getHotel? f hid = none → reserve_room f hid = (.error .notFound, f)) ∧
    (∀ h, getHotel? f hid = some h → h.available_rooms = 0 →
        reserve_room f hid = (.error .validation, f)) ∧
    (∀ h, getHotel? f hid = some h → h.available_rooms ≠ 0 →
        (reserve_room f hid).1 = .ok () ∧
        (reserve_room f hid).2 = hotelSaveAll ((hotelLoadAll f).map (fun g =>
            if g.hotel_id = hid then { g with reserved_rooms := g.reserved_rooms + 1 }
            else g)) ∧
        getHotel? (reserve_room f hid).2 hid
          = some { h with reserved_rooms := h.reserved_rooms + 1 }) := by
  refine ⟨?_, ?_, ?_⟩
  · intro hn
    simp [reserve_room, hn]
  · intro h hf h0
    simp [reserve_room, hf, h0]
  · intro h hf h0
    have hf' : (hotelLoadAll f).find? (fun g => g.hotel_id == hid) = some h := hf
    have hvalid : h.valid := hotelLoadAll_valid (List.mem_of_find?_eq_some hf')
    have hle : h.reserved_rooms + 1 ≤ h.total_rooms := by
      obtain ⟨_, _, _, _, _, _, ht, hr0, hrt⟩ := hvalid
      unfold Hotel.available_rooms at h0
      omega
    have hupv : Hotel.valid { h with reserved_rooms := h.reserved_rooms + 1 } := by
      obtain ⟨a1, a2, a3, a4, a5, a6, a7, a8, a9⟩ := hvalid
      unfold Hotel.valid
      dsimp only
      exact ⟨a1, a2, a3, a4, a5, a6, a7, by omega, by omega⟩
    have hsnd : (reserve_room f hid).2 = hotelSaveAll ((hotelLoadAll f).map (fun g =>
        if g.hotel_id = hid then { g with reserved_rooms := g.reserved_rooms + 1 }
        else g)) := by
      simp [reserve_room, hf, h0]
    refine ⟨by simp [reserve_room, hf, h0], hsnd, ?_⟩
    rw [hsnd]
    exact find_loadAll_save_update (hotelLoadAll f)
      (fun g hg => hotelLoadAll_valid hg) hid
      (fun g => { g with reserved_rooms := g.reserved_rooms + 1 }) h hf' hupv rfl

/-- Witness for C1 at a store holding one hotel with one free room. -/
theorem c1_witness :
    (reserve_room c1File "h-1").1 = .ok () ∧
    getHotel? (reserve_room c1File "h-1").2 "h-1"
      = some ⟨"h-1", "Hotel A", "CDMX", 2, 2⟩ := by
  have h := (c1_reserve_room_contract c1File "h-1").2.2
    ⟨"h-1", "Hotel A", "CDMX", 2, 1⟩ (by decide) (by decide)
  exact ⟨h.1, h.2.2⟩

/-- Claim C5: on a hotel with availability, `reserve_room` followed
immediately by `cancel_room_reservation` on the same id succeeds and
restores the hotel record — in particular `reserved_rooms` — to exactly
its value before the pair of calls. -/
theorem c5_reserve_cancel_roundtrip (f : HotelFile) (hid : String) (h : Hotel)
    (hfind : getHotel? f hid = some h) (havail : 0 < h.available_rooms) :
    (reserve_room f hid).1 = .ok () ∧
    (cancel_room_reservation (reserve_room f hid).2 hid).1 = .ok () ∧
    getHotel? (cancel_room_reservation (reserve_room f hid).2 hid).2 hid = some h := by
  have hf' : (hotelLoadAll f).find? (fun g => g.hotel_id == hid) = some h := hfind
  have hvalid : h.valid := hotelLoadAll_valid (List.mem_of_find?_eq_some hf')
  obtain ⟨a1, a2, a3, a4, a5, a6, a7, a8, a9⟩ := hvalid
  have h0 : h.available_rooms ≠ 0 := by omega
  have hle : h.reserved_rooms + 1 ≤ h.total_rooms := by
    unfold Hotel.available_rooms at havail
    omega
  have hupv : Hotel.valid { h with reserved_rooms := h.reserved_rooms + 1 } := by
    unfold Hotel.valid
    dsimp only
    exact ⟨a1, a2, a3, a4, a5, a6, a7, by omega, by omega⟩
  have hsnd : (reserve_room f hid).2 = hotelSaveAll ((hotelLoadAll f).map (fun g =>
      if g.hotel_id = hid then { g with reserved_rooms := g.reserved_rooms + 1 }
      else g)) := by
    simp [reserve_room, hfind, h0]
  have hfind1 : getHotel? (reserve_room f hid).2 hid
      = some { h with reserved_rooms := h.reserved_rooms + 1 } := by
    rw [hsnd]
    exact find_loadAll_save_update (hotelLoadAll f)
      (fun g hg => hotelLoadAll_valid hg) hid
      (fun g => { g with reserved_rooms := g.reserved_rooms + 1 }) h hf' hupv rfl
  have hfind1' : (hotelLoadAll (reserve_room f hid).2).find? (fun g => g.hotel_id == hid)
      = some { h with reserved_rooms := h.reserved_rooms + 1 } := hfind1
  have h1r : ({ h with reserved_rooms := h.reserved_rooms + 1 } : Hotel).reserved_rooms ≠ 0 := by
    dsimp only
    omega
  have hupv2 : Hotel.valid { h with reserved_rooms := h.reserved_rooms + 1 - 1 } := by
    unfold Hotel.valid
    dsimp only
    exact ⟨a1, a2, a3, a4, a5, a6, a7, by omega, by omega⟩
  have heq : ({ h with reserved_rooms := h.reserved_rooms + 1 - 1 } : Hotel) = h := by
    have he : h.reserved_rooms + 1 - 1 = h.reserved_rooms := by omega
    rw [he]
  refine ⟨by simp [reserve_room, hfind, h0], ?_, ?_⟩
  · simp [cancel_room_reservation, hfind1, h1r]
  · have hsnd2 : (cancel_room_reservation (reserve_room f hid).2 hid).2
        = hotelSaveAll ((hotelLoadAll (reserve_room f hid).2).map (fun g =>
            if g.hotel_id = hid then { g with reserved_rooms := g.reserved_rooms - 1 }
            else g)) := by
      simp [cancel_room_reservation, hfind1, h1r]
    rw [hsnd2]
    have hres := find_loadAll_save_update (hotelLoadAll (reserve_room f hid).2)
      (fun g hg => hotelLoadAll_valid hg) hid
      (fun g => { g with reserved_rooms := g.reserved_rooms - 1 })
      { h with reserved_rooms := h.reserved_rooms + 1 } hfind1'
      (by exact heq ▸ hupv2) rfl
    dsimp only at hres
    have he2 : h.reserved_rooms + 1 - 1 = h.reserved_rooms := by omega
    rw [he2] at hres
    exact hres

/-- Witness for C5 at a store holding one hotel with two free rooms. -/
theorem c5_witness :
    (reserve_room c5File "h-1").1 = .ok () ∧
    (cancel_room_reservation (reserve_room c5File "h-1").2 "h-1").1 = .ok () ∧
    getHotel? (cancel_room_reservation (reserve_room c5File "h-1").2 "h-1").2 "h-1"
      = some ⟨"h-1", "Hotel A", "CDMX", 3, 1⟩ :=
  c5_reserve_cancel_roundtrip c5File "h-1" ⟨"h-1", "Hotel A", "CDMX", 3, 1⟩
    (by decide) (by decide)

/-- Claim C7: `create_customer` trims both inputs and fails with a
Validation error exactly when the trimmed name is empty or the trimmed
email does not contain both `@` and `.`; otherwise it builds the customer
from the fresh id and the trimmed inputs, appends it to the loaded
record set, and persists the result. -/
theorem c7_create_customer_contract (f : CustomerFile) (fresh name email : String)
    (hf1 : pyStrip fresh = fresh) (hf2 : fresh ≠ "") :
    ((create_customer f fresh name email).1 = .error .validation ↔
        (pyStrip name = "" ∨
         ¬(pyContains (pyStrip email) '@' = true ∧ pyContains (pyStrip email) '.' = true))) ∧
    (∀ e, (create_customer f fresh name email).1 = .error e → e = .validation) ∧
    (pyStrip name ≠ "" → pyContains (pyStrip email) '@' = true →
        pyContains (pyStrip email) '.' = true →
        (create_customer f fresh name email).1
            = .ok ⟨fresh, pyStrip name, pyStrip email⟩ ∧
        (create_customer f fresh name email).2
            = customerSaveAll (customerLoadAll f ++ [⟨fresh, pyStrip name, pyStrip email⟩]) ∧
        customerLoadAll (create_customer f fresh name email).2
            = customerLoadAll f ++ [⟨fresh, pyStrip name, pyStrip email⟩]) := by
  by_cases h1 : pyStrip name = ""
  · refine ⟨by simp [create_customer, h1], by simp [create_customer, h1], ?_⟩
    intro hn
    exact absurd h1 hn
  · by_cases h2 : pyContains (pyStrip email) '@' = true
    · by_cases h3 : pyContains (pyStrip email) '.' = true
      · have hemail_ne : pyStrip email ≠ "" := by
          intro hh
          rw [hh] at h2
          exact absurd h2 (by decide)
        have hvc : Customer.valid ⟨fresh, pyStrip name, pyStrip email⟩ := by
          unfold Customer.valid
          exact ⟨hf1, hf2, pyStrip_idem _, h1, pyStrip_idem _, hemail_ne⟩
        have hok : create_customer f fresh name email
            = (.ok ⟨fresh, pyStrip name, pyStrip email⟩,
               customerSaveAll (customerLoadAll f ++ [⟨fresh, pyStrip name, pyStrip email⟩])) := by
          simp [create_customer, h1, h2, h3]
        refine ⟨by simp [hok, h1, h2, h3], by simp [hok], ?_⟩
        intro _ _ _
        refine ⟨by simp [hok], by simp [hok], ?_⟩
        rw [hok]
        exact customerLoadAll_saveAll (fun c hc => by
          rcases List.mem_append.mp hc with hc | hc
          · exact customerLoadAll_valid hc
          · rw [List.mem_singleton.mp hc]
            exact hvc)
      · refine ⟨by simp [create_customer, h1, h2, h3],
               by simp [create_customer, h1, h2, h3], ?_⟩
        intro _ _ hc
        exact absurd hc h3
    · refine ⟨by simp [create_customer, h1, h2],
             by simp [create_customer, h1, h2], ?_⟩
      intro _ hc
      exact absurd hc h2

/-- Witness for C7: creating a customer from padded inputs on an empty
store. -/
theorem c7_witness :
    (create_customer [] "c-1" " Ana " " ana@mail.com ").1
        = .ok ⟨"c-1", pyStrip " Ana ", pyStrip " ana@mail.com "⟩ ∧
    (create_customer [] "c-1" " Ana " " ana@mail.com ").2
        = customerSaveAll (customerLoadAll [] ++
            [⟨"c-1", pyStrip " Ana ", pyStrip " ana@mail.com "⟩]) ∧
    customerLoadAll (create_customer [] "c-1" " Ana " " ana@mail.com ").2
        = customerLoadAll [] ++ [⟨"c-1", pyStrip " Ana ", pyStrip " ana@mail.com "⟩] :=
  (c7_create_customer_contract [] "c-1" " Ana " " ana@mail.com "
    (by decide) (by decide)).2.2 (by decide) (by decide) (by decide)

/-- Customer analogue of `find_loadAll_save_update`. -/
theorem find_customerLoadAll_save_update (l : List Customer)
    (hvl : ∀ g ∈ l, g.valid) (cid : String) (upd : Customer → Customer) (c : Customer)
    (hfind : l.find? (fun g => g.customer_id == cid) = some c)
    (hval : (upd c).valid) (hpres : (upd c).customer_id = c.customer_id) :
    (customerLoadAll (customerSaveAll (l.map (fun g =>
        if g.customer_id = cid then upd g else g)))).find?
      (fun g => g.customer_id == cid) = some (upd c) := by
  induction l with
  | nil => simp at hfind
  | cons g t ih =>
    by_cases hg : g.customer_id = cid
    · rw [List.find?_cons_of_pos _ (by simp [hg])] at hfind
      injection hfind with hfind
      subst hfind
      rw [List.map_cons, if_pos hg]
      show ((customerToRecord (upd g) :: customerSaveAll (t.map _)).filterMap
              customerValidateRecord).find? _ = _
      rw [List.filterMap_cons, customerToRecord_validate hval]
      exact List.find?_cons_of_pos _ (by simp [hpres, hg])
    · rw [List.find?_cons_of_neg _ (by simp [hg])] at hfind
      have hgv : g.valid := hvl g (by simp)
      rw [List.map_cons, if_neg hg]
      show ((customerToRecord g :: customerSaveAll (t.map _)).filterMap
              customerValidateRecord).find? _ = _
      rw [List.filterMap_cons, customerToRecord_validate hgv]
      rw [List.find?_cons_of_neg _ (by simp [hg])]
      exact ih (fun x hx => hvl x (by simp [hx])) hfind

/-- Claim C10: every Customer repository operation (create, get, modify,
delete, display) and every Hotel repository operation defined in the code
(create, get, modify, display) performs all Validation/NotFound checks
before any write, so whenever one of them returns an error its persisted
record set is exactly the input record set. -/
theorem c10_no_partial_writes (cf : CustomerFile) (hf : HotelFile)
    (fresh name email city cid hid : String) (total : Int) :
    (isErr (create_customer cf fresh name email).1 = true →
        (create_customer cf fresh name email).2 = cf) ∧
    (isErr (get_customer cf cid).1 = true → (get_customer cf cid).2 = cf) ∧
    (isErr (modify_customer cf cid name email).1 = true →
        (modify_customer cf cid name email).2 = cf) ∧
    (isErr (delete_customer cf cid).1 = true → (delete_customer cf cid).2 = cf) ∧
    (isErr (display_customer cf cid).1 = true → (display_customer cf cid).2 = cf) ∧
    (isErr (create_hotel hf fresh name city total).1 = true →
        (create_hotel hf fresh name city total).2 = hf) ∧
    (isErr (get_hotel hf hid).1 = true → (get_hotel hf hid).2 = hf) ∧
    (isErr (modify_hotel hf hid name city total).1 = true →
        (modify_hotel hf hid name city total).2 = hf) ∧
    (isErr (display_hotel hf hid).1 = true → (display_hotel hf hid).2 = hf) := by
  refine ⟨?_, ?_, ?_, ?_, ?_, ?_, ?_, ?_, ?_⟩
  · intro hE
    unfold create_customer at hE ⊢
    dsimp only at hE ⊢
    split_ifs at hE ⊢ <;> first | rfl | simp [isErr] at hE
  · intro hE
    cases hx : getCustomer? cf cid with
    | some c => simp [get_customer, hx, isErr] at hE
    | none => simp [get_customer, hx]
  · intro hE
    unfold modify_customer at hE ⊢
    dsimp only at hE ⊢
    split_ifs at hE ⊢ with h1 h2 h3
    · rfl
    · rfl
    · -- a matching customer exists; the post-save lookup must succeed
      exfalso
      simp only [Bool.or_eq_true, Bool.not_eq_true'] at h2
      have hsome : ((customerLoadAll cf).find? (fun c => c.customer_id == cid)).isSome :=
        List.find?_isSome.mpr (List.any_eq_true.mp h3)
      obtain ⟨c0, hc0⟩ := Option.isSome_iff_exists.mp hsome
      have hc0p : c0.customer_id = cid := by
        have := List.find?_some hc0
        simpa using this
      have hc0v := customerLoadAll_valid (List.mem_of_find?_eq_some hc0)
      have hemail_ne : pyStrip email ≠ "" := by
        intro hh
        rw [hh] at h2
        exact h2 (Or.inl (by decide))
      have hupdv : Customer.valid ⟨cid, pyStrip name, pyStrip email⟩ := by
        unfold Customer.valid
        dsimp only
        obtain ⟨b1, b2, _, _, _, _⟩ := hc0v
        rw [← hc0p]
        exact ⟨b1, b2, pyStrip_idem _, h1, pyStrip_idem _, hemail_ne⟩
      have hfound := find_customerLoadAll_save_update (customerLoadAll cf)
        (fun g hg => customerLoadAll_valid hg) cid
        (fun _ => ⟨cid, pyStrip name, pyStrip email⟩) c0 hc0 hupdv (by
          dsimp only
          exact hc0p.symm)
      dsimp only at hfound
      rw [show (getCustomer? (customerSaveAll ((customerLoadAll cf).map (fun c =>
            if c.customer_id = cid then ⟨cid, pyStrip name, pyStrip email⟩ else c)))
            cid) = some ⟨cid, pyStrip name, pyStrip email⟩ from hfound] at hE
      simp [isErr] at hE
    · rfl
  · intro hE
    unfold delete_customer at hE ⊢
    dsimp only at hE ⊢
    split_ifs at hE ⊢ <;> first | rfl | simp [isErr] at hE
  · intro hE
    cases hx : getCustomer? cf cid with
    | some c => simp [display_customer, hx, isErr] at hE
    | none => simp [display_customer, hx]
  · intro hE
    unfold create_hotel at hE ⊢
    dsimp only at hE ⊢
    split_ifs at hE ⊢ <;> first | rfl | simp [isErr] at hE
  · intro hE
    cases hx : getHotel? hf hid with
    | some h => simp [get_hotel, hx, isErr] at hE
    | none => simp [get_hotel, hx]
  · intro hE
    unfold modify_hotel at hE ⊢
    dsimp only at hE ⊢
    split_ifs at hE ⊢ with h1 h2 h3 h4 h5
    · rfl
    · rfl
    · rfl
    · rfl
    · -- a matching hotel exists and capacity is not shrunk below
      -- reservations; the post-save lookup must succeed
      exfalso
      have hsome : ((hotelLoadAll hf).find? (fun h => h.hotel_id == hid)).isSome :=
        List.find?_isSome.mpr (List.any_eq_true.mp h5)
      obtain ⟨h0, hh0⟩ := Option.isSome_iff_exists.mp hsome
      have hh0p : h0.hotel_id = hid := by
        have := List.find?_some hh0
        simpa using this
      have hh0v := hotelLoadAll_valid (List.mem_of_find?_eq_some hh0)
      have hres_le : h0.reserved_rooms ≤ total := by
        by_contra hgt
        exact h4 (List.any_eq_true.mpr
          ⟨h0, List.mem_of_find?_eq_some hh0, by simp [hh0p]; omega⟩)
      have hupdv : Hotel.valid ⟨hid, pyStrip name, pyStrip city, total,
          h0.reserved_rooms⟩ := by
        unfold Hotel.valid
        dsimp only
        obtain ⟨b1, b2, _, _, _, _, _, b8, _⟩ := hh0v
        rw [← hh0p]
        exact ⟨b1, b2, pyStrip_idem _, h1, pyStrip_idem _, h2, by omega, b8, hres_le⟩
      have hfound := find_loadAll_save_update (hotelLoadAll hf)
        (fun g hg => hotelLoadAll_valid hg) hid
        (fun g => ⟨hid, pyStrip name, pyStrip city, total, g.reserved_rooms⟩) h0 hh0
        hupdv (by
          dsimp only
          exact hh0p.symm)
      dsimp only at hfound
      rw [show (getHotel? (hotelSaveAll ((hotelLoadAll hf).map (fun h =>
            if h.hotel_id = hid then
              ⟨hid, pyStrip name, pyStrip city, total, h.reserved_rooms⟩
            else h))) hid)
          = some ⟨hid, pyStrip name, pyStrip city, total, h0.reserved_rooms⟩
          from hfound] at hE
      simp [isErr] at hE
    · rfl
  · intro hE
    cases hx : getHotel? hf hid with
    | some h => simp [display_hotel, hx, isErr] at hE
    | none => simp [display_hotel, hx]

/-- Witness for C10: on empty stores with invalid inputs every operation
errors and leaves the (empty) store untouched. -/
theorem c10_witness :
    (create_customer [] "x" " " "e").2 = ([] : CustomerFile) ∧
    (get_customer [] "c").2 = ([] : CustomerFile) ∧
    (modify_customer [] "c" " " "e").2 = ([] : CustomerFile) ∧
    (delete_customer [] "c").2 = ([] : CustomerFile) ∧
    (display_customer [] "c").2 = ([] : CustomerFile) ∧
    (create_hotel [] "x" " " " " 0).2 = ([] : HotelFile) ∧
    (get_hotel [] "h").2 = ([] : HotelFile) ∧
    (modify_hotel [] "h" " " " " 0).2 = ([] : HotelFile) ∧
    (display_hotel [] "h").2 = ([] : HotelFile) := by
  have h := c10_no_partial_writes [] [] "x" " " "e" " " "c" "h" 0
  exact ⟨h.1 rfl, h.2.1 rfl, h.2.2.1 rfl, h.2.2.2.1 rfl, h.2.2.2.2.1 rfl,
         h.2.2.2.2.2.1 rfl, h.2.2.2.2.2.2.1 rfl, h.2.2.2.2.2.2.2.1 rfl,
         h.2.2.2.2.2.2.2.2 rfl⟩

/-- Claim C2: `create_reservation` checks the customer, then the hotel,
then reserves the room, and only after that succeeds does it append and
persist the new reservation; every earlier failure propagates with the
reservation file unchanged.  `rid` stands for the generated `uuid4()` id
(always a non-empty stripped string). -/
theorem c2_create_reservation_contract (cf : CustomerFile) (hf : HotelFile)
    (rf : ResFile) (cid hid rid : String)
    (hr1 : pyStrip rid = rid) (hr2 : rid ≠ "") :
    (getCustomer? cf cid = none →
        create_reservation cf hf rf cid hid rid = (.error .notFound, hf, rf)) ∧
    (∀ c, getCustomer? cf cid = some c → getHotel? hf hid = none →
        create_reservation cf hf rf cid hid rid = (.error .notFound, hf, rf)) ∧
    (∀ c h, getCustomer? cf cid = some c → getHotel? hf hid = some h →
        h.available_rooms = 0 →
        create_reservation cf hf rf cid hid rid = (.error .validation, hf, rf)) ∧
    (∀ c h, getCustomer? cf cid = some c → getHotel? hf hid = some h →
        h.available_rooms ≠ 0 →
        (create_reservation cf hf rf cid hid rid).1 = .ok ⟨rid, cid, hid⟩ ∧
        (create_reservation cf hf rf cid hid rid).2.1 = (reserve_room hf hid).2 ∧
        resLoadAll (create_reservation cf hf rf cid hid rid).2.2
          = resLoadAll rf ++ [⟨rid, cid, hid⟩]) := by
  refine ⟨?_, ?_, ?_, ?_⟩
  · intro hn
    simp [create_reservation, hn]
  · intro c hc hn
    simp [create_reservation, hc, hn]
  · intro c h hc hh h0
    have hrr : reserve_room hf hid = (.error .validation, hf) := by
      simp [reserve_room, hh, h0]
    simp [create_reservation, hc, hh, hrr]
  · intro c h hc hh h0
    have hrr : reserve_room hf hid = (.ok (), hotelSaveAll ((hotelLoadAll hf).map
        (fun g => if g.hotel_id = hid then
            { g with reserved_rooms := g.reserved_rooms + 1 } else g))) := by
      simp [reserve_room, hh, h0]
    have hcv : c.valid :=
      customerLoadAll_valid (List.mem_of_find?_eq_some (show
        (customerLoadAll cf).find? (fun g => g.customer_id == cid) = some c from hc))
    have hcp : c.customer_id = cid := by
      have := List.find?_some (show
        (customerLoadAll cf).find? (fun g => g.customer_id == cid) = some c from hc)
      simpa using this
    have hhv : h.valid :=
      hotelLoadAll_valid (List.mem_of_find?_eq_some (show
        (hotelLoadAll hf).find? (fun g => g.hotel_id == hid) = some h from hh))
    have hhp : h.hotel_id = hid := by
      have := List.find?_some (show
        (hotelLoadAll hf).find? (fun g => g.hotel_id == hid) = some h from hh)
      simpa using this
    have hrv : Reservation.valid ⟨rid, cid, hid⟩ := by
      unfold Reservation.valid
      dsimp only
      obtain ⟨c1, c2, _, _, _, _⟩ := hcv
      obtain ⟨h1, h2, _, _, _, _⟩ := hhv
      rw [← hcp, ← hhp]
      exact ⟨hr1, hr2, c1, c2, h1, h2⟩
    refine ⟨by simp [create_reservation, hc, hh, hrr], ?_, ?_⟩
    · simp [create_reservation, hc, hh, hrr]
    · have hsnd : (create_reservation cf hf rf cid hid rid).2.2
          = resSaveAll (resLoadAll rf ++ [⟨rid, cid, hid⟩]) := by
        simp [create_reservation, hc, hh, hrr]
      rw [hsnd]
      exact resLoadAll_saveAll (fun r hr => by
        rcases List.mem_append.mp hr with hr | hr
        · exact resLoadAll_valid hr
        · rw [List.mem_singleton.mp hr]
          exact hrv)

/-- Witness for C2: a successful reservation on one-customer/one-hotel
stores. -/
theorem c2_witness :
    (create_reservation c2CustFile c2HotelFile c2ResFile "c-1" "h-1" "r-1").1
        = .ok ⟨"r-1", "c-1", "h-1"⟩ ∧
    (create_reservation c2CustFile c2HotelFile c2ResFile "c-1" "h-1" "r-1").2.1
        = (reserve_room c2HotelFile "h-1").2 ∧
    resLoadAll (create_reservation c2CustFile c2HotelFile c2ResFile "c-1" "h-1" "r-1").2.2
        = resLoadAll c2ResFile ++ [⟨"r-1", "c-1", "h-1"⟩] :=
  (c2_create_reservation_contract c2CustFile c2HotelFile c2ResFile "c-1" "h-1" "r-1"
    (by decide) (by decide)).2.2.2 ⟨"c-1", "Ana", "ana@mail.com"⟩
    ⟨"h-1", "Hotel A", "CDMX", 2, 1⟩ (by decide) (by decide) (by decide)

/-- Claim C9: in `cancel_reservation` the hotel-side release runs before
the reservation file is rewritten, so if the release returns any error
the persisted reservation record set is exactly the input set. -/
theorem c9_cancel_preserves_reservations_on_hotel_error (hf : HotelFile)
    (rf : ResFile) (rid : String) (t : Reservation) (e : Err) (hf' : HotelFile)
    (ht : resTarget? rf rid = some t)
    (he : cancel_room_reservation hf t.hotel_id = (.error e, hf')) :
    cancel_reservation hf rf rid = (.error e, hf', rf) := by
  unfold resTarget? at ht
  unfold cancel_reservation
  dsimp only
  simp only [ht, he]

/-- Witness for C9: cancelling a reservation whose hotel is gone leaves
the reservation store untouched. -/
theorem c9_witness :
    cancel_reservation ([] : HotelFile) c9ResFile "r-9"
      = (.error .notFound, ([] : HotelFile), c9ResFile) :=
  c9_cancel_preserves_reservations_on_hotel_error [] c9ResFile "r-9"
    ⟨"r-9", "c-9", "h-gone"⟩ .notFound [] (by decide) rfl

/-- Counterexample to claim C3 as stated: a reservation for `r-1` exists,
yet `cancel_reservation` does not remove it — the hotel-side release
fails NotFound (the hotel store is empty), the reservation store is left
unchanged, and a subsequent display of the same id still succeeds. -/
theorem c3_counterexample :
    resTarget? c3ResFile "r-1" = some ⟨"r-1", "c-1", "h-x"⟩ ∧
    cancel_reservation ([] : HotelFile) c3ResFile "r-1"
      = (.error .notFound, ([] : HotelFile), c3ResFile) ∧
    display_reservation c3ResFile "r-1"
      = .ok "Reservation[r-1] customer=c-1 hotel=h-x" :=
  ⟨rfl, rfl, rfl⟩

/-- Claim C3 as amended: `cancel_reservation` fails NotFound when no
reservation matches; otherwise, provided the reservation's hotel id
refers to a hotel present in the store with `reserved_rooms > 0` (so the
release succeeds), it removes the reservation from the persisted set —
subsequent lookup and display of the same id fail NotFound — and
restores exactly one unit of that hotel's availability. -/
theorem c3_cancel_reservation_amended (hf : HotelFile) (rf : ResFile) (rid : String) :
    (resTarget? rf rid = none →
        cancel_reservation hf rf rid = (.error .notFound, hf, rf)) ∧
    (∀ t g, resTarget? rf rid = some t → getHotel? hf t.hotel_id = some g →
        0 < g.reserved_rooms →
        (cancel_reservation hf rf rid).1 = .ok () ∧
        resLoadAll (cancel_reservation hf rf rid).2.2
          = (resLoadAll rf).filter (fun r => !(r.reservation_id == rid)) ∧
        display_reservation (cancel_reservation hf rf rid).2.2 rid
          = .error .notFound ∧
        getHotel? (cancel_reservation hf rf rid).2.1 t.hotel_id
          = some { g with reserved_rooms := g.reserved_rooms - 1 } ∧
        Hotel.available_rooms { g with reserved_rooms := g.reserved_rooms - 1 }
          = g.available_rooms + 1) := by
  constructor
  · intro hn
    unfold resTarget? at hn
    unfold cancel_reservation
    dsimp only
    simp only [hn]
  · intro t g ht hg hr
    have ht' : ((resLoadAll rf).filter
        (fun r => r.reservation_id == rid)).getLast? = some t := ht
    have hg' : (hotelLoadAll hf).find? (fun x => x.hotel_id == t.hotel_id) = some g := hg
    have hgv : g.valid := hotelLoadAll_valid (List.mem_of_find?_eq_some hg')
    obtain ⟨a1, a2, a3, a4, a5, a6, a7, a8, a9⟩ := hgv
    have hgz : g.reserved_rooms ≠ 0 := by omega
    have hcrr : cancel_room_reservation hf t.hotel_id
        = (.ok (), hotelSaveAll ((hotelLoadAll hf).map (fun x =>
            if x.hotel_id = t.hotel_id then
              { x with reserved_rooms := x.reserved_rooms - 1 } else x))) := by
      simp [cancel_room_reservation, hg, hgz]
    have hcr : cancel_reservation hf rf rid
        = (.ok (), hotelSaveAll ((hotelLoadAll hf).map (fun x =>
            if x.hotel_id = t.hotel_id then
              { x with reserved_rooms := x.reserved_rooms - 1 } else x)),
           resSaveAll ((resLoadAll rf).filter
             (fun r => !(r.reservation_id == rid)))) := by
      unfold cancel_reservation
      dsimp only
      simp only [ht', hcrr]
    have hloadres : resLoadAll (cancel_reservation hf rf rid).2.2
        = (resLoadAll rf).filter (fun r => !(r.reservation_id == rid)) := by
      rw [hcr]
      exact resLoadAll_saveAll (fun r hr' =>
        resLoadAll_valid (List.mem_of_mem_filter hr'))
    have hnone : ((resLoadAll rf).filter
        (fun r => !(r.reservation_id == rid))).find?
          (fun r => r.reservation_id == rid) = none := by
      rw [List.find?_eq_none]
      intro x hx
      have := (List.mem_filter.mp hx).2
      simp only [Bool.not_eq_true'] at this
      simp [this]
    have hupdv : Hotel.valid { g with reserved_rooms := g.reserved_rooms - 1 } := by
      unfold Hotel.valid
      dsimp only
      exact ⟨a1, a2, a3, a4, a5, a6, a7, by omega, by omega⟩
    refine ⟨by rw [hcr], hloadres, ?_, ?_, ?_⟩
    · unfold display_reservation
      rw [hloadres, hnone]
    · rw [hcr]
      exact find_loadAll_save_update (hotelLoadAll hf)
        (fun x hx => hotelLoadAll_valid hx) t.hotel_id
        (fun x => { x with reserved_rooms := x.reserved_rooms - 1 }) g hg' hupdv rfl
    · unfold Hotel.available_rooms
      dsimp only
      omega

/-- Witness for the amended C3: cancelling the only reservation of a
hotel with one of three rooms reserved. -/
theorem c3_witness :
    (cancel_reservation c3HotelFile c3ResFileOk "r-1").1 = .ok () ∧
    resLoadAll (cancel_reservation c3HotelFile c3ResFileOk "r-1").2.2
      = (resLoadAll c3ResFileOk).filter (fun r => !(r.reservation_id == "r-1")) ∧
    display_reservation (cancel_reservation c3HotelFile c3ResFileOk "r-1").2.2 "r-1"
      = .error .notFound ∧
    getHotel? (cancel_reservation c3HotelFile c3ResFileOk "r-1").2.1 "h-1"
      = some ⟨"h-1", "Hotel A", "CDMX", 3, 1⟩ ∧
    Hotel.available_rooms ⟨"h-1", "Hotel A", "CDMX", 3, 1⟩
      = Hotel.available_rooms ⟨"h-1", "Hotel A", "CDMX", 3, 2⟩ + 1 :=
  (c3_cancel_reservation_amended c3HotelFile c3ResFileOk "r-1").2
    ⟨"r-1", "c-1", "h-1"⟩ ⟨"h-1", "Hotel A", "CDMX", 3, 2⟩
    (by decide) (by decide) (by decide)

/-- Counterexample to claim C6 as stated: for the stored hotel the
requested `total_rooms` (7) is not below its `reserved_rooms` (0), yet
`modify_hotel` does not replace the record — it fails Validation because
the trimmed replacement name is empty, leaving the store unchanged. -/
theorem c6_counterexample :
    getHotel? c6File "h-1" = some ⟨"h-1", "A", "C", 5, 0⟩ ∧
    ¬((7 : Int) < (⟨"h-1", "A", "C", 5, 0⟩ : Hotel).reserved_rooms) ∧
    modify_hotel c6File "h-1" " " "C2" 7 = (.error .validation, c6File) :=
  ⟨rfl, by decide, rfl⟩

/-- Claim C6 as amended: provided the replacement name and city are
non-empty after trimming and the new `total_rooms` is positive (otherwise
those validations fail first), `modify_hotel` on a present id fails
Validation when the new `total_rooms` is strictly below the hotel's
current `reserved_rooms` — leaving the store unchanged — and otherwise
replaces the matching record's name, city and `total_rooms`, preserving
its `reserved_rooms` and leaving every other loaded hotel unchanged. -/
theorem c6_modify_hotel_amended (f : HotelFile) (hid name city : String)
    (total : Int) (h : Hotel)
    (hname : pyStrip name ≠ "") (hcity : pyStrip city ≠ "") (htot : 0 < total)
    (hfind : getHotel? f hid = some h) :
    (total < h.reserved_rooms →
        modify_hotel f hid name city total = (.error .validation, f)) ∧
    ((∀ g ∈ hotelLoadAll f, g.hotel_id = hid → g.reserved_rooms ≤ total) →
        (modify_hotel f hid name city total).1
            = .ok ⟨hid, pyStrip name, pyStrip city, total, h.reserved_rooms⟩ ∧
        hotelLoadAll (modify_hotel f hid name city total).2
          = (hotelLoadAll f).map (fun g =>
              if g.hotel_id = hid then
                ⟨hid, pyStrip name, pyStrip city, total, g.reserved_rooms⟩
              else g)) := by
  have hf' : (hotelLoadAll f).find? (fun g => g.hotel_id == hid) = some h := hfind
  have hmem := List.mem_of_find?_eq_some hf'
  have hhp : h.hotel_id = hid := by
    have := List.find?_some hf'
    simpa using this
  have htot' : ¬(total ≤ 0) := by omega
  constructor
  · intro hlt
    have hany : (hotelLoadAll f).any (fun g =>
        g.hotel_id == hid && decide (total < g.reserved_rooms)) = true :=
      List.any_eq_true.mpr ⟨h, hmem, by simp [hhp, hlt]⟩
    unfold modify_hotel
    dsimp only
    rw [if_neg hname, if_neg hcity, if_neg htot', if_pos hany]
  · intro hall
    have hanyF : ¬((hotelLoadAll f).any (fun g =>
        g.hotel_id == hid && decide (total < g.reserved_rooms)) = true) := by
      rw [Bool.not_eq_true, List.any_eq_false]
      intro x hx
      by_cases hxid : x.hotel_id = hid
      · have hle := hall x hx hxid
        simp [hxid]
        omega
      · simp [hxid]
    have hanyT : (hotelLoadAll f).any (fun g => g.hotel_id == hid) = true :=
      List.any_eq_true.mpr ⟨h, hmem, by simp [hhp]⟩
    have hupdv : Hotel.valid ⟨hid, pyStrip name, pyStrip city, total,
        h.reserved_rooms⟩ := by
      unfold Hotel.valid
      dsimp only
      obtain ⟨b1, b2, _, _, _, _, _, b8, _⟩ := hotelLoadAll_valid hmem
      rw [← hhp]
      exact ⟨b1, b2, pyStrip_idem _, hname, pyStrip_idem _, hcity, htot, b8,
             hall h hmem hhp⟩
    have hfound := find_loadAll_save_update (hotelLoadAll f)
      (fun g hg => hotelLoadAll_valid hg) hid
      (fun g => ⟨hid, pyStrip name, pyStrip city, total, g.reserved_rooms⟩) h hf'
      hupdv (by
        dsimp only
        exact hhp.symm)
    dsimp only at hfound
    have hmod : modify_hotel f hid name city total
        = (.ok ⟨hid, pyStrip name, pyStrip city, total, h.reserved_rooms⟩,
           hotelSaveAll ((hotelLoadAll f).map (fun g =>
             if g.hotel_id = hid then
               ⟨hid, pyStrip name, pyStrip city, total, g.reserved_rooms⟩
             else g))) := by
      unfold modify_hotel
      dsimp only
      rw [if_neg hname, if_neg hcity, if_neg htot', if_neg hanyF, if_pos hanyT]
      rw [show getHotel? (hotelSaveAll ((hotelLoadAll f).map (fun g =>
            if g.hotel_id = hid then
              ⟨hid, pyStrip name, pyStrip city, total, g.reserved_rooms⟩
            else g))) hid
          = some ⟨hid, pyStrip name, pyStrip city, total, h.reserved_rooms⟩
          from hfound]
    refine ⟨by rw [hmod], ?_⟩
    rw [hmod]
    exact hotelLoadAll_saveAll (fun g hg => by
      obtain ⟨g0, hg0, rfl⟩ := List.mem_map.mp hg
      by_cases hgid : g0.hotel_id = hid
      · rw [if_pos hgid]
        obtain ⟨b1, b2, _, _, _, _, _, b8, _⟩ := hotelLoadAll_valid hg0
        unfold Hotel.valid
        dsimp only
        rw [← hgid]
        exact ⟨b1, b2, pyStrip_idem _, hname, pyStrip_idem _, hcity, htot, b8,
               hall g0 hg0 hgid⟩
      · rw [if_neg hgid]
        exact hotelLoadAll_valid hg0)

/-- Witness for the amended C6: renaming and growing the stored hotel. -/
theorem c6_witness :
    (modify_hotel c6File "h-1" " B " " C2 " 7).1
        = .ok ⟨"h-1", pyStrip " B ", pyStrip " C2 ", 7, 0⟩ ∧
    hotelLoadAll (modify_hotel c6File "h-1" " B " " C2 " 7).2
        = (hotelLoadAll c6File).map (fun g =>
            if g.hotel_id = "h-1" then ⟨"h-1", pyStrip " B ", pyStrip " C2 ", 7,
              g.reserved_rooms⟩
            else g) :=
  (c6_modify_hotel_amended c6File "h-1" " B " " C2 " 7 ⟨"h-1", "A", "C", 5, 0⟩
    (by decide) (by decide) (by decide) (by decide)).2 (by decide)
